import Mathlib

/-!
Verification of the Shelly dashboard panel's device resolution and field
inference engine (shallow embedding of `shelly-dashboard-panel.js`).

The repository contains three near-duplicate revisions of the panel:
v0.3.1 (the current one), v0.2.1 and v0.1.3.  The definitions below embed
the v0.3.1 logic (entity grouping, family filter, primary-entity selection,
IP resolution, status-field resolution, dedup/row building, sorting);
`extractIPv021` additionally embeds the v0.2.1 IP resolver, which differs
from the v0.3.1 one by a fourth, display-name based fallback method.

JavaScript conventions used throughout the embedding:
* a nullable string field is `Option String`; JS string truthiness
  (`if (s)`) is `truthy` below (present and non-empty);
* `Array.prototype.find` is `List.find?`, `filter` is `List.filter`,
  `some` is `List.any`, all order-preserving;
* a JS `Map` built by insertion is an association list in key insertion
  order;
* `Array.prototype.sort` (stable since ES2019) is a stable insertion sort
  parameterised by the comparator.
-/

namespace ShellyPanel

/-- JS truthiness of a nullable string: present and non-empty. -/
def truthy : Option String → Bool
  | none => false
  | some s => s ≠ ""

/-- ASCII lower-casing, modelling `String.prototype.toLowerCase` on the
ASCII strings this code handles (kernel-reducible, unlike
`String.toLower`). -/
def asciiLower (s : String) : String :=
  String.mk (s.data.map Char.toLower)

/-- Kernel-reducible `startsWith`. -/
def strStartsWith (pre s : String) : Bool :=
  pre.data.isPrefixOf s.data

/-- Kernel-reducible `endsWith`. -/
def strEndsWith (sfx s : String) : Bool :=
  sfx.data.isSuffixOf s.data

/-- Kernel-reducible `drop` of the first `n` characters. -/
def strDrop (s : String) (n : Nat) : String :=
  String.mk (s.data.drop n)

/-- Kernel-reducible `dropRight` of the last `n` characters. -/
def strDropRight (s : String) (n : Nat) : String :=
  String.mk (s.data.take (s.data.length - n))

/-- Case-insensitive `endsWith`, modelling an `/xxx$/i` regex test
(the suffix argument is given in lower case). -/
def endsCI (sfx s : String) : Bool :=
  sfx.data.isSuffixOf (s.data.map Char.toLower)

/-- The regex `/_\d+$/`: the string ends with an underscore followed by
one or more digits. -/
def endsUnderscoreNum (s : String) : Bool :=
  let r := s.data.reverse
  !(r.takeWhile (·.isDigit)).isEmpty && (r.dropWhile (·.isDigit)).head? == some '_'

/-- Does the char list start with `channel_` followed by a digit?  Helper
for the regex `/channel_\d+/`. -/
def channelAt : List Char → Bool
  | 'c' :: 'h' :: 'a' :: 'n' :: 'n' :: 'e' :: 'l' :: '_' :: d :: _ => d.isDigit
  | _ => false

/-- The regex `/channel_\d+/` as a containment test. -/
def hasChannelNum : List Char → Bool
  | [] => false
  | c :: rest => channelAt (c :: rest) || hasChannelNum rest

/-- The conjunction `!/_\d+$/.test(id) && !/channel_\d+/.test(id)` used to
prefer non-channel entities in `_selectPrimaryEntity`. -/
def noChannelSuffix (s : String) : Bool :=
  !endsUnderscoreNum s && !hasChannelNum s.data

/-- Split a char list on a separator character; like `String.splitOn` for
a one-character separator (kernel-reducible). -/
def splitOnChar (sep : Char) : List Char → List (List Char)
  | [] => [[]]
  | c :: rest =>
      if c = sep then [] :: splitOnChar sep rest
      else
        match splitOnChar sep rest with
        | [] => [[c]]
        | h :: t => (c :: h) :: t

/-- One dot-separated component of an IPv4 dotted quad: 1 to 3 digits. -/
def isQuadPart (l : List Char) : Bool :=
  decide (1 ≤ l.length) && decide (l.length ≤ 3) && l.all (·.isDigit)

/-- The anchored regex `/^\d{1,3}\.\d{1,3}\.\d{1,3}\.\d{1,3}$/` used by the
IP resolver to validate sensor states. -/
def ipShaped (s : String) : Bool :=
  match splitOnChar '.' s.data with
  | [a, b, c, d] => isQuadPart a && isQuadPart b && isQuadPart c && isQuadPart d
  | _ => false

/-! ## Data model (registry snapshot) -/

/-- A device registry record, as consumed by the panel. -/
structure DeviceRecord where
  id : String
  name : Option String := none
  name_by_user : Option String := none
  model : Option String := none
  manufacturer : Option String := none
  configuration_url : Option String := none
  connections : List (String × String) := []
deriving Repr, DecidableEq

/-- An entity registry record, as consumed by the panel. -/
structure EntityRecord where
  entity_id : String
  device_id : Option String := none
  platform : Option String := none
  domain : String := ""
  entity_category : Option String := none
deriving Repr, DecidableEq

/-- A live state snapshot entry (`hass.states[entity_id]`). -/
structure State where
  state : String
deriving Repr, DecidableEq

/-! ## Entity grouper (`entitiesByDevice`) -/

/-- One step of building the `entitiesByDevice` map: append the entity to
the list stored under its `device_id` key, creating the key (at the end,
matching JS `Map` insertion order) if it is new. -/
def insertGroup : List (Option String × List EntityRecord) → EntityRecord →
    List (Option String × List EntityRecord)
  | [], e => [(e.device_id, [e])]
  | (k, g) :: rest, e =>
      if k == e.device_id then (k, g ++ [e]) :: rest
      else (k, g) :: insertGroup rest e

/-- The `entitiesByDevice` map of `_loadData`: a single pass grouping the
entity list by its (nullable) `device_id`. -/
def groupByDevice (entities : List EntityRecord) :
    List (Option String × List EntityRecord) :=
  entities.foldl insertGroup []

/-- `Map.prototype.get`. -/
def groupGet (m : List (Option String × List EntityRecord)) (k : Option String) :
    Option (List EntityRecord) :=
  (m.find? (fun p => p.1 == k)).map (·.2)

/-- `entitiesByDevice.get(d.id) || []`. -/
def entsOf (m : List (Option String × List EntityRecord)) (id : String) :
    List EntityRecord :=
  (groupGet m (some id)).getD []

/-! ## Family filter (`shellyDevices`) -/

/-- The predicate of the `devices.filter` call: some grouped entity has
platform `shelly`, or the manufacturer (case-normalised) is `shelly`. -/
def isShellyDevice (ebd : List (Option String × List EntityRecord))
    (d : DeviceRecord) : Bool :=
  let ents := entsOf ebd d.id
  let isShellyIntegration := ents.any (fun e => e.platform == some "shelly")
  let isShellyManufacturer :=
    truthy d.manufacturer && (asciiLower (d.manufacturer.getD "") == "shelly")
  isShellyIntegration || isShellyManufacturer

/-- The family filter: `devices.filter((d) => ...)` over the grouped
entity map. -/
def shellyDevices (devices : List DeviceRecord) (entities : List EntityRecord) :
    List DeviceRecord :=
  devices.filter (isShellyDevice (groupByDevice entities))

/-! ## Primary-entity selector (`_selectPrimaryEntity`, v0.3.1) -/

/-- The fixed domain priority order of `_selectPrimaryEntity`. -/
def priorityDomains : List String :=
  ["light", "switch", "cover", "sensor", "binary_sensor"]

/-- The `for (const domain of priorityDomains)` loop of
`_selectPrimaryEntity`: for each domain, stateful entities win (preferring
one without a channel suffix), else the first entity of the domain wins,
else move to the next domain. -/
def selectFromDomains (primaryEntities : List EntityRecord)
    (stateFor : String → Option State) : List String → Option EntityRecord
  | [] => none
  | d :: ds =>
      let withState := primaryEntities.filter
        (fun e => e.domain == d && (stateFor e.entity_id).isSome)
      if withState.isEmpty then
        match primaryEntities.find? (fun e => e.domain == d) with
        | some e => some e
        | none => selectFromDomains primaryEntities stateFor ds
      else
        match withState.find? (fun e => noChannelSuffix e.entity_id) with
        | some e => some e
        | none => withState.head?

/-- `_selectPrimaryEntity` (v0.3.1): discard categorised entities, fall
back to the raw list if that empties the set, then walk the domain
priority order, then any stateful filtered entity, then the first filtered
entity. -/
def selectPrimaryEntity (entities : List EntityRecord)
    (stateFor : String → Option State) : Option EntityRecord :=
  let primaryEntities := entities.filter (fun e => !truthy e.entity_category)
  if primaryEntities.isEmpty then
    entities.head?
  else
    match selectFromDomains primaryEntities stateFor priorityDomains with
    | some e => some e
    | none =>
        match primaryEntities.find? (fun e => (stateFor e.entity_id).isSome) with
        | some e => some e
        | none => primaryEntities.head?

/-! ## IP resolver (`_extractIP`) -/

/-- Strip a leading scheme, modelling the regex replace
`/^https?:\/\//`. -/
def stripScheme (s : String) : String :=
  if strStartsWith "https://" s then strDrop s 8
  else if strStartsWith "http://" s then strDrop s 7
  else s

/-- Strip one trailing slash, modelling the regex replace `/\/$/`. -/
def stripTrailSlash (s : String) : String :=
  if strEndsWith "/" s then strDropRight s 1 else s

/-- The hostname part of what follows an http(s) scheme: the text up to
the first `/`, `?` or `#`, with any `:port` stripped, lowercased. -/
def urlHostOf (rest : String) : String :=
  String.mk (((rest.data.takeWhile
    (fun c => !(c == '/' || c == '?' || c == '#'))).takeWhile
      (fun c => c != ':')).map Char.toLower)

/-- Modelled behaviour of the WHATWG `new URL(s)` constructor followed by
reading `.hostname`, restricted to the http/https URLs and scheme-less
strings this code feeds it: an http(s) URL yields the (lowercased) text
between the scheme and the first `/`, `:`, `?` or `#`; anything without
such a scheme fails to parse (`none` models the thrown exception). -/
def urlHostname (s : String) : Option String :=
  let low := asciiLower s
  if strStartsWith "https://" low then some (urlHostOf (strDrop s 8))
  else if strStartsWith "http://" low then some (urlHostOf (strDrop s 7))
  else none

/-- The host validity check of method 1: non-empty and neither `localhost`
nor `0.0.0.0`. -/
def hostOk (h : String) : Bool :=
  h ≠ "" && h ≠ "localhost" && h ≠ "0.0.0.0"

/-- Method 1 of `_extractIP`: the hostname of `configuration_url`, with a
manual scheme/path-stripping fallback when URL parsing throws. -/
def extractIP_method1 (device : DeviceRecord) : Option String :=
  if truthy device.configuration_url then
    let cfg := device.configuration_url.getD ""
    match urlHostname cfg with
    | some h => if hostOk h then some h else none
    | none =>
        let cleaned := stripTrailSlash (stripScheme cfg)
        let hostname := String.mk ((cleaned.data.takeWhile
          (fun c => c != '/')).takeWhile (fun c => c != ':'))
        if hostOk hostname then some hostname else none
  else none

/-- The four `ipPatterns` regexes of method 2, in priority order:
`/wifi_?ip$/i`, `/ip_?address$/i`, `/_ip$/i`, `/^ip$/i`. -/
def ipPatterns : List (String → Bool) :=
  [ fun s => endsCI "wifi_ip" s || endsCI "wifiip" s
  , fun s => endsCI "ip_address" s || endsCI "ipaddress" s
  , fun s => endsCI "_ip" s
  , fun s => asciiLower s == "ip" ]

/-- Method 2 of `_extractIP`: for each pattern in order, the first
`sensor`-domain entity matching it; return its state if live and shaped
like an IPv4 dotted quad, else try the next pattern. -/
def extractIP_method2 (entities : List EntityRecord)
    (stateFor : String → Option State) : Option String :=
  ipPatterns.findSome? (fun pat =>
    match entities.find? (fun e => pat e.entity_id && e.domain == "sensor") with
    | some e =>
        match stateFor e.entity_id with
        | some st =>
            if st.state ≠ "" && st.state ≠ "unknown" && st.state ≠ "unavailable"
                && ipShaped st.state then
              some st.state
            else none
        | none => none
    | none => none)

/-- Method 3 of `_extractIP`: scan all `sensor`-domain entities and return
the first live state shaped like an IPv4 dotted quad. -/
def extractIP_method3 (entities : List EntityRecord)
    (stateFor : String → Option State) : Option String :=
  (entities.filter (fun e => e.domain == "sensor")).findSome? (fun sensor =>
    match stateFor sensor.entity_id with
    | some st => if st.state ≠ "" && ipShaped st.state then some st.state else none
    | none => none)

/-- `_extractIP` (v0.3.1): methods 1-3 in order, else the empty string. -/
def extractIP (device : DeviceRecord) (entities : List EntityRecord)
    (stateFor : String → Option State) : String :=
  match extractIP_method1 device with
  | some h => h
  | none =>
      match extractIP_method2 entities stateFor with
      | some s => s
      | none =>
          match extractIP_method3 entities stateFor with
          | some s => s
          | none => ""

/-! ## The v0.2.1 IP resolver's extra method 4 -/

/-- First match of the unanchored regex
`/\d{1,3}\.\d{1,3}\.\d{1,3}\.\d{1,3}/` starting exactly at the head of the
char list: three groups of 1-3 digits each followed by a dot, then a final
group of up to 3 digits (greedy). -/
def quadAt (l : List Char) : Option (List Char) :=
  let r1 := l.takeWhile (·.isDigit)
  if r1.length < 1 || 3 < r1.length then none else
  match l.dropWhile (·.isDigit) with
  | '.' :: t1 =>
      let r2 := t1.takeWhile (·.isDigit)
      if r2.length < 1 || 3 < r2.length then none else
      match t1.dropWhile (·.isDigit) with
      | '.' :: t2 =>
          let r3 := t2.takeWhile (·.isDigit)
          if r3.length < 1 || 3 < r3.length then none else
          match t2.dropWhile (·.isDigit) with
          | '.' :: t3 =>
              let r4 := (t3.takeWhile (·.isDigit)).take 3
              if r4.isEmpty then none
              else some (r1 ++ '.' :: r2 ++ '.' :: r3 ++ '.' :: r4)
          | _ => none
      | _ => none
  | _ => none

/-- Leftmost match of the dotted-quad regex anywhere in the char list. -/
def findQuadAux : List Char → Option (List Char)
  | [] => none
  | c :: rest =>
      match quadAt (c :: rest) with
      | some m => some m
      | none => findQuadAux rest

/-- `s.match(/\d{1,3}\.\d{1,3}\.\d{1,3}\.\d{1,3}/)` returning the matched
substring. -/
def findQuad (s : String) : Option String :=
  (findQuadAux s.data).map (fun l => String.mk l)

/-- Method 4 of the v0.2.1 `_extractIP`: search the display name
(`name_by_user || name`) for an embedded dotted-quad substring. -/
def extractIP_method4 (device : DeviceRecord) : Option String :=
  let disp := if truthy device.name_by_user then device.name_by_user else device.name
  if truthy disp then findQuad (disp.getD "") else none

/-- `_extractIP` as in v0.2.1 (`shelly-dashboard-panel.js`): methods 1-3
are identical to v0.3.1, followed by the display-name method 4, else the
empty string. -/
def extractIPv021 (device : DeviceRecord) (entities : List EntityRecord)
    (stateFor : String → Option State) : String :=
  match extractIP_method1 device with
  | some h => h
  | none =>
      match extractIP_method2 entities stateFor with
      | some s => s
      | none =>
          match extractIP_method3 entities stateFor with
          | some s => s
          | none =>
              match extractIP_method4 device with
              | some s => s
              | none => ""

/-! ## Status field resolvers (`_loadData` per-device blocks, v0.3.1) -/

/-- MAC address: the first `connections` pair whose first component is
`mac`. -/
def macOf (d : DeviceRecord) : String :=
  ((d.connections.find? (fun c => c.1 == "mac")).map (·.2)).getD ""

/-- Cloud status: the first `binary_sensor` entity matching `/_cloud$/i`;
with a live state, `on` means connected. -/
def cloudOf (ents : List EntityRecord) (stateFor : String → Option State) :
    Option Bool :=
  match ents.find? (fun e => e.domain == "binary_sensor" && endsCI "_cloud" e.entity_id) with
  | some e => (stateFor e.entity_id).map (fun st => st.state == "on")
  | none => none

/-- The shared shape of the temperature / RSSI / uptime blocks: first
`sensor` entity matching the given case-insensitive suffix; keep its state
and entity id when the state is live and not `unknown`/`unavailable`. -/
def sensorRead (sfx : String) (ents : List EntityRecord)
    (stateFor : String → Option State) : Option (String × String) :=
  match ents.find? (fun e => e.domain == "sensor" && endsCI sfx e.entity_id) with
  | some e =>
      match stateFor e.entity_id with
      | some st =>
          if st.state ≠ "unknown" && st.state ≠ "unavailable" then
            some (st.state, e.entity_id)
          else none
      | none => none
  | none => none

/-- The firmware block's entity lookup: first `update`-domain entity
matching `/_firmware_update$/i`. -/
def fwUpdateEnt (ents : List EntityRecord) : Option EntityRecord :=
  ents.find? (fun e => e.domain == "update" && endsCI "_firmware_update" e.entity_id)

/-- `fwUpdateAvailable`: initialised `false`, set to `state === 'on'` when
the firmware entity has a live state. -/
def fwAvailOf (ents : List EntityRecord) (stateFor : String → Option State) : Bool :=
  match fwUpdateEnt ents with
  | some e =>
      match stateFor e.entity_id with
      | some st => st.state == "on"
      | none => false
  | none => false

/-- `fwUpToDate`: initialised `null`, set to `state === 'off'` when the
firmware entity has a live state. -/
def fwUpToDateOf (ents : List EntityRecord) (stateFor : String → Option State) :
    Option Bool :=
  match fwUpdateEnt ents with
  | some e => (stateFor e.entity_id).map (fun st => st.state == "off")
  | none => none

/-- Reboot affordance: the identifier of the first `button` entity
matching `/_reboot$/i`. -/
def rebootOf (ents : List EntityRecord) : Option String :=
  (ents.find? (fun e => e.domain == "button" && endsCI "_reboot" e.entity_id)).map
    (·.entity_id)

/-- `name: d.name || d.model || d.id`. -/
def rowNameOf (d : DeviceRecord) : String :=
  if truthy d.name then d.name.getD ""
  else if truthy d.model then d.model.getD ""
  else d.id

/-! ## Row builder and deduplicator (`_loadData`, v0.3.1) -/

/-- One output row of the panel (the object literal pushed onto `rows`). -/
structure Row where
  device_id : String
  entity_id : String
  name : String
  model : String
  ip : String
  mac : String
  cloud : Option Bool
  temperature : Option String
  temperatureEntity : Option String
  rssi : Option String
  rssiEntity : Option String
  uptime : Option String
  uptimeEntity : Option String
  fwUpdateEntity : Option String
  fwUpToDate : Option Bool
  fwUpdateAvailable : Bool
  rebootEntity : Option String
  configuration_url : String
deriving Repr, DecidableEq

/-- The row pushed for one surviving device: every field resolver applied
to the device's own entity group. -/
def buildRow (d : DeviceRecord) (ents : List EntityRecord)
    (stateFor : String → Option State) : Row :=
  let ip := extractIP d ents stateFor
  { device_id := d.id
    entity_id := ((selectPrimaryEntity ents stateFor).map (·.entity_id)).getD ""
    name := rowNameOf d
    model := if truthy d.model then d.model.getD "" else ""
    ip := ip
    mac := macOf d
    cloud := cloudOf ents stateFor
    temperature := (sensorRead "_device_temperature" ents stateFor).map (·.1)
    temperatureEntity := (sensorRead "_device_temperature" ents stateFor).map (·.2)
    rssi := (sensorRead "_rssi" ents stateFor).map (·.1)
    rssiEntity := (sensorRead "_rssi" ents stateFor).map (·.2)
    uptime := (sensorRead "_uptime" ents stateFor).map (·.1)
    uptimeEntity := (sensorRead "_uptime" ents stateFor).map (·.2)
    fwUpdateEntity := (fwUpdateEnt ents).map (·.entity_id)
    fwUpToDate := fwUpToDateOf ents stateFor
    fwUpdateAvailable := fwAvailOf ents stateFor
    rebootEntity := rebootOf ents
    configuration_url :=
      if truthy d.configuration_url then d.configuration_url.getD ""
      else if ip ≠ "" then "http://" ++ ip ++ "/" else "" }

/-- The dedup loop of `_loadData`: skip devices whose id is already in the
visited set, resolve the IP, skip devices whose `ip_<addr>` key is already
visited, otherwise mark both keys visited and emit the row. -/
def dedupRows (ebd : List (Option String × List EntityRecord))
    (stateFor : String → Option State) :
    List DeviceRecord → List String → List Row
  | [], _ => []
  | d :: ds, seen =>
      if seen.contains d.id then dedupRows ebd stateFor ds seen
      else
        let ents := entsOf ebd d.id
        let ip := extractIP d ents stateFor
        if ip ≠ "" then
          if seen.contains ("ip_" ++ ip) then dedupRows ebd stateFor ds seen
          else
            buildRow d ents stateFor ::
              dedupRows ebd stateFor ds (("ip_" ++ ip) :: d.id :: seen)
        else
          buildRow d ents stateFor :: dedupRows ebd stateFor ds (d.id :: seen)

/-- The full row construction of `_loadData`: group entities, filter the
family, dedup and build rows in registry traversal order. -/
def buildRows (devices : List DeviceRecord) (entities : List EntityRecord)
    (stateFor : String → Option State) : List Row :=
  dedupRows (groupByDevice entities) stateFor (shellyDevices devices entities) []

/-- The firmware cell of the rendered table (the `FW Update` column):
an update button when an update is available, a check when up to date,
otherwise the unknown chip. -/
inductive FwCell where
  | updateButton
  | ok
  | unknown
deriving Repr, DecidableEq

/-- Classification used by `_render` for the firmware column. -/
def fwCellOf (r : Row) : FwCell :=
  if r.fwUpdateAvailable then .updateButton
  else if r.fwUpToDate == some true then .ok
  else .unknown

/-! ## Row sorter (`_toggleSort` / `_applySort`, v0.3.1) -/

/-- Sort direction (`'asc'` / `'desc'`). -/
inductive SortDir where
  | asc
  | desc
deriving Repr, DecidableEq

/-- Flip the direction, as `dir === 'asc' ? 'desc' : 'asc'`. -/
def flipDir : SortDir → SortDir
  | .asc => .desc
  | .desc => .asc

/-- The `this._sort` state: a single column+direction pair. -/
structure SortState where
  key : String
  dir : SortDir
deriving Repr, DecidableEq

/-- `_toggleSort`: initialise ascending when unset, flip the direction on
the active column, reset to ascending on a new column. -/
def toggleSort : Option SortState → String → SortState
  | none, key => ⟨key, .asc⟩
  | some s, key =>
      if s.key == key then ⟨s.key, flipDir s.dir⟩ else ⟨key, .asc⟩

/-- A JS value as seen by the sorter's `val` extractor. -/
inductive SortVal where
  | vnull
  | vbool (b : Bool)
  | vstr (s : String)
deriving Repr, DecidableEq

/-- A nullable string field as a `SortVal`. -/
def SortVal.ofOptStr : Option String → SortVal
  | none => .vnull
  | some s => .vstr s

/-- A nullable boolean field as a `SortVal`. -/
def SortVal.ofOptBool : Option Bool → SortVal
  | none => .vnull
  | some b => .vbool b

/-- The dynamic property access `r[key]` of `_applySort`'s `val`. -/
def rowGet (r : Row) : String → SortVal
  | "device_id" => .vstr r.device_id
  | "entity_id" => .vstr r.entity_id
  | "name" => .vstr r.name
  | "model" => .vstr r.model
  | "ip" => .vstr r.ip
  | "mac" => .vstr r.mac
  | "cloud" => .ofOptBool r.cloud
  | "temperature" => .ofOptStr r.temperature
  | "temperatureEntity" => .ofOptStr r.temperatureEntity
  | "rssi" => .ofOptStr r.rssi
  | "rssiEntity" => .ofOptStr r.rssiEntity
  | "uptime" => .ofOptStr r.uptime
  | "uptimeEntity" => .ofOptStr r.uptimeEntity
  | "fwUpdateEntity" => .ofOptStr r.fwUpdateEntity
  | "fwUpToDate" => .ofOptBool r.fwUpToDate
  | "fwUpdateAvailable" => .vbool r.fwUpdateAvailable
  | "rebootEntity" => .ofOptStr r.rebootEntity
  | "configuration_url" => .vstr r.configuration_url
  | _ => .vnull

/-- `val`'s normalisation: null/undefined to the empty string, booleans to
`'1'`/`'0'`, everything else to its string form. -/
def sortValStr : SortVal → String
  | .vnull => ""
  | .vbool b => if b then "1" else "0"
  | .vstr s => s

/-- The sort key extracted from a row for a column. -/
def sortVal (key : String) (r : Row) : String :=
  sortValStr (rowGet r key)

/-- Stable insertion of `x` into `l` under a three-way comparator: `x`
moves past every element it compares `gt` against and lands before the
first other one, so equal elements keep their original relative order —
the behaviour of the (stable) `Array.prototype.sort`. -/
def insertIns (c : α → α → Ordering) (x : α) : List α → List α
  | [] => [x]
  | y :: ys => if c x y = .gt then y :: insertIns c x ys else x :: y :: ys

/-- Stable comparator-based sort modelling `arr.sort(cmp)`. -/
def sortByCmp (c : α → α → Ordering) : List α → List α
  | [] => []
  | x :: xs => insertIns c x (sortByCmp c xs)

/-- Apply the direction to a comparison result, as
`dir === 'asc' ? cmp : -cmp`. -/
def dirOrd : SortDir → Ordering → Ordering
  | .asc, o => o
  | .desc, o => o.swap

/-- `_applySort`: sort the rows by the active column's extracted string
keys under the collator, in the active direction. -/
def applySort (coll : String → String → Ordering) (s : SortState)
    (rows : List Row) : List Row :=
  sortByCmp (fun a b => dirOrd s.dir (coll (sortVal s.key a) (sortVal s.key b))) rows

/-! ### A concrete collator model -/

/-- Digits of a run read as a natural number. -/
def digitsToNat (ds : List Char) : Nat :=
  ds.foldl (fun n c => 10 * n + (c.toNat - 48)) 0

/-- Modelled comparison of
`Intl.Collator(undefined, { numeric: true, sensitivity: 'base' })` on
ASCII strings: maximal digit runs compare by numeric value, other
characters compare case-insensitively.  Fuel-based structural recursion
(each step strictly shortens the first list, so the initial fuel below is
always enough). -/
def collAux : Nat → List Char → List Char → Ordering
  | 0, _, _ => .eq
  | _ + 1, [], [] => .eq
  | _ + 1, [], _ :: _ => .lt
  | _ + 1, _ :: _, [] => .gt
  | fuel + 1, a :: as, b :: bs =>
      if a.isDigit && b.isDigit then
        match compare (digitsToNat (a :: as.takeWhile (·.isDigit)))
            (digitsToNat (b :: bs.takeWhile (·.isDigit))) with
        | .eq => collAux fuel (as.dropWhile (·.isDigit)) (bs.dropWhile (·.isDigit))
        | o => o
      else
        match compare a.toLower b.toLower with
        | .eq => collAux fuel as bs
        | o => o

/-- The collator model lifted to strings. -/
def collatorCompare (s t : String) : Ordering :=
  collAux (s.data.length + 1) s.data t.data

/-! ## Concrete fixtures for scenarios, counterexamples and witnesses -/

/-- A state lookup with no live states. -/
def stNone : String → Option State := fun _ => none

/-- A state lookup where every entity is `on`. -/
def stOn : String → Option State := fun _ => some { state := "on" }

/-- A family device whose `configuration_url` host is a name, not an
IPv4 address. -/
def hostDevice : DeviceRecord :=
  { id := "dH", manufacturer := some "Shelly",
    configuration_url := some "http://shellyhost/" }

/-- A family device with no `configuration_url`. -/
def sensorDevice : DeviceRecord :=
  { id := "dS", manufacturer := some "Shelly" }

/-- An IP-pattern sensor entity of `sensorDevice`. -/
def ipSensorEnt : EntityRecord :=
  { entity_id := "sensor.s1_ip", device_id := some "dS", domain := "sensor" }

/-- A state lookup exposing `sensorDevice`'s IP sensor. -/
def stIpSensor : String → Option State := fun eid =>
  if eid == "sensor.s1_ip" then some { state := "192.168.1.7" } else none

/-- First of two distinct family devices sharing one resolved IP. -/
def dupDeviceA : DeviceRecord :=
  { id := "d1", manufacturer := some "Shelly",
    configuration_url := some "http://192.168.1.10/" }

/-- Second of two distinct family devices sharing one resolved IP. -/
def dupDeviceB : DeviceRecord :=
  { id := "d2", manufacturer := some "Shelly",
    configuration_url := some "http://192.168.1.10/" }

/-- A family device whose display name embeds a dotted quad and which has
no `configuration_url` and no entities. -/
def namedDevice : DeviceRecord :=
  { id := "dN", name := some "Shelly Plug 192.168.1.50",
    manufacturer := some "Shelly" }

/-- An uncategorised stateful light entity. -/
def lightEnt : EntityRecord :=
  { entity_id := "light.lamp", device_id := some "dS", domain := "light" }

/-- An uncategorised stateful switch entity. -/
def switchEnt : EntityRecord :=
  { entity_id := "switch.relay", device_id := some "dS", domain := "switch" }

/-- `switch.foo_1`: first channel of a multi-channel device. -/
def swFoo1 : EntityRecord :=
  { entity_id := "switch.foo_1", device_id := some "dS", domain := "switch" }

/-- `switch.foo_2`: second channel of a multi-channel device. -/
def swFoo2 : EntityRecord :=
  { entity_id := "switch.foo_2", device_id := some "dS", domain := "switch" }

/-- `switch.foo`: the channel-free alias. -/
def swFoo : EntityRecord :=
  { entity_id := "switch.foo", device_id := some "dS", domain := "switch" }

/-- A diagnostic-category entity. -/
def diagEnt1 : EntityRecord :=
  { entity_id := "sensor.dev_rssi", device_id := some "dS", domain := "sensor",
    entity_category := some "diagnostic" }

/-- Another diagnostic-category entity. -/
def diagEnt2 : EntityRecord :=
  { entity_id := "sensor.dev_uptime", device_id := some "dS", domain := "sensor",
    entity_category := some "diagnostic" }

/-- `sensor.temp`, carrying no entity category. -/
def tempSensorEnt : EntityRecord :=
  { entity_id := "sensor.temp", device_id := some "dS", domain := "sensor" }

/-- A firmware update entity. -/
def fwEnt : EntityRecord :=
  { entity_id := "update.dev_firmware_update", device_id := some "dS",
    domain := "update" }

/-- An entity with no owning device (`device_id` null). -/
def orphanEnt : EntityRecord :=
  { entity_id := "sensor.orphan", domain := "sensor" }

/-- A row with every field empty or unknown. -/
def blankRow : Row :=
  { device_id := "", entity_id := "", name := "", model := "", ip := "",
    mac := "", cloud := none, temperature := none, temperatureEntity := none,
    rssi := none, rssiEntity := none, uptime := none, uptimeEntity := none,
    fwUpdateEntity := none, fwUpToDate := none, fwUpdateAvailable := false,
    rebootEntity := none, configuration_url := "" }

/-- First of two rows tying on the `name` sort column. -/
def rowP1 : Row := { blankRow with name := "plug", model := "modelA" }

/-- Second of two rows tying on the `name` sort column. -/
def rowP2 : Row := { blankRow with name := "plug", model := "modelB" }

/-! ## Shared helper lemmas -/

theorem truthy_getD_ne (o : Option String) (h : truthy o = true) : o.getD "" ≠ "" := by
  cases o with
  | none => simp [truthy] at h
  | some s => simpa [truthy] using h

theorem manuMatch_iff (o : Option String) :
    (truthy o && (asciiLower (o.getD "") == "shelly")) = true ↔
      o.map asciiLower = some "shelly" := by
  cases o with
  | none => simp [truthy]
  | some s =>
      simp only [truthy, Option.getD_some, Option.map_some', Bool.and_eq_true,
        beq_iff_eq, decide_eq_true_eq, Option.some.injEq]
      constructor
      · exact fun h => h.2
      · intro h
        refine ⟨fun he => ?_, h⟩
        subst he
        exact absurd h (by decide)

/-! ## C7: family filter -/

/-- C7: for every input device and entity list, the family filter's output
is a sublist (hence subset) of the input, and a device is included iff its
case-normalised manufacturer is `shelly` or some grouped entity of the
device has platform `shelly`. -/
theorem family_filter_iff (devices : List DeviceRecord) (entities : List EntityRecord) :
    (shellyDevices devices entities).Sublist devices ∧
    ∀ d, d ∈ shellyDevices devices entities ↔
      d ∈ devices ∧ (d.manufacturer.map asciiLower = some "shelly" ∨
        ∃ e ∈ entsOf (groupByDevice entities) d.id, e.platform = some "shelly") := by
  constructor
  · exact List.filter_sublist _
  · intro d
    rw [shellyDevices, List.mem_filter]
    constructor
    · rintro ⟨hmem, hpred⟩
      refine ⟨hmem, ?_⟩
      simp only [isShellyDevice, Bool.or_eq_true, List.any_eq_true, beq_iff_eq] at hpred
      rcases hpred with h | h
      · exact Or.inr h
      · exact Or.inl ((manuMatch_iff d.manufacturer).mp h)
    · rintro ⟨hmem, hpred⟩
      refine ⟨hmem, ?_⟩
      simp only [isShellyDevice, Bool.or_eq_true, List.any_eq_true, beq_iff_eq]
      rcases hpred with h | h
      · exact Or.inr ((manuMatch_iff d.manufacturer).mpr h)
      · exact Or.inl h

/-- C7 witness: instantiation at a device qualifying by manufacturer with
no entities. -/
theorem family_filter_iff_witness :
    sensorDevice ∈ shellyDevices [sensorDevice] [] := by
  exact ((family_filter_iff [sensorDevice] []).2 sensorDevice).mpr
    (by constructor
        · exact List.mem_singleton.mpr rfl
        · exact Or.inl (by decide))

/-! ## C8: entity grouper -/

theorem groupGet_insertGroup (m : List (Option String × List EntityRecord))
    (e : EntityRecord) (k : Option String) :
    groupGet (insertGroup m e) k =
      if e.device_id = k then some (((groupGet m k).getD []) ++ [e])
      else groupGet m k := by
  induction m with
  | nil =>
      by_cases h : e.device_id = k
      · simp [insertGroup, groupGet, List.find?_cons, h]
      · simp [insertGroup, groupGet, List.find?_cons, h]
  | cons p rest ih =>
      obtain ⟨kk, g⟩ := p
      by_cases h1 : kk = e.device_id
      · subst h1
        by_cases h2 : e.device_id = k
        · subst h2
          simp [insertGroup, groupGet, List.find?_cons]
        · have hb : (e.device_id == k) = false := beq_eq_false_iff_ne.mpr h2
          simp [insertGroup, groupGet, List.find?_cons, h2, hb]
      · by_cases h2 : kk = k
        · subst h2
          have h3 : ¬ e.device_id = kk := fun hh => h1 hh.symm
          have hb1 : (kk == e.device_id) = false := beq_eq_false_iff_ne.mpr h1
          simp [insertGroup, groupGet, List.find?_cons, h3, hb1]
        · have hb1 : (kk == e.device_id) = false := beq_eq_false_iff_ne.mpr h1
          have hb2 : (kk == k) = false := beq_eq_false_iff_ne.mpr h2
          simp only [insertGroup, hb1, Bool.false_eq_true, if_false]
          simp only [groupGet, List.find?_cons, hb2] at ih ⊢
          exact ih

theorem groupByDevice_getD (entities : List EntityRecord) (k : Option String) :
    (groupGet (groupByDevice entities) k).getD []
      = entities.filter (fun e => e.device_id == k) := by
  induction entities using List.reverseRecOn with
  | nil => simp [groupByDevice, groupGet]
  | append_singleton l e ih =>
      rw [groupByDevice, List.foldl_append, List.foldl_cons, List.foldl_nil]
      rw [show List.foldl insertGroup [] l = groupByDevice l from rfl]
      rw [groupGet_insertGroup, List.filter_append]
      by_cases h : e.device_id = k
      · simp [h, ih]
      · simp [h, ih]

/-- C8 counterexample: an entity whose `device_id` is null is not dropped
by the grouper — it is kept, grouped under the null key. -/
theorem grouper_keeps_null_counterexample :
    groupByDevice [orphanEnt] = [(none, [orphanEnt])] ∧
    orphanEnt.device_id = none := by
  constructor <;> rfl

/-- C8 (amended): the grouper's group for an actual device id is exactly
the input entities owning that id, in input order; in particular entities
with a null `device_id` are absent from every device-id-keyed group (they
are kept under the null key, not dropped from the map). -/
theorem grouper_device_groups (entities : List EntityRecord) (id : String) :
    (groupGet (groupByDevice entities) (some id)).getD []
      = entities.filter (fun e => e.device_id == some id) ∧
    ∀ e ∈ (groupGet (groupByDevice entities) (some id)).getD [],
      e.device_id = some id := by
  refine ⟨groupByDevice_getD entities (some id), ?_⟩
  intro e he
  rw [groupByDevice_getD entities (some id)] at he
  have := List.of_mem_filter he
  simpa using this

/-! ## C10: row name fallback chain -/

/-- C10: the emitted row's `name` is the device's `name` when non-empty,
else the device's `model` when non-empty, else the device's `id`; hence it
is never empty when the device id is non-empty. -/
theorem row_name_chain (d : DeviceRecord) (ents : List EntityRecord)
    (sf : String → Option State) :
    (truthy d.name = true → (buildRow d ents sf).name = d.name.getD "") ∧
    (truthy d.name = false → truthy d.model = true →
      (buildRow d ents sf).name = d.model.getD "") ∧
    (truthy d.name = false → truthy d.model = false →
      (buildRow d ents sf).name = d.id) ∧
    (d.id ≠ "" → (buildRow d ents sf).name ≠ "") := by
  have hname : (buildRow d ents sf).name = rowNameOf d := rfl
  rw [hname]
  refine ⟨?_, ?_, ?_, ?_⟩
  · intro h; simp [rowNameOf, h]
  · intro h1 h2; simp [rowNameOf, h1, h2]
  · intro h1 h2; simp [rowNameOf, h1, h2]
  · intro hid
    by_cases h1 : truthy d.name = true
    · simp only [rowNameOf, h1, if_true]
      exact truthy_getD_ne _ h1
    · by_cases h2 : truthy d.model = true
      · simp only [rowNameOf, Bool.not_eq_true] at h1
        simp only [rowNameOf, h1, h2, Bool.false_eq_true, if_false, if_true]
        exact truthy_getD_ne _ h2
      · simp only [Bool.not_eq_true] at h1 h2
        simp only [rowNameOf, h1, h2, Bool.false_eq_true, if_false]
        exact hid

/-- C10 witness: a device with no name falls back to its non-empty model,
and the resulting row name is non-empty. -/
theorem row_name_chain_witness :
    (buildRow { id := "dev9", model := some "Shelly 1PM" } [] stNone).name
        = "Shelly 1PM" ∧
    (buildRow { id := "dev9", model := some "Shelly 1PM" } [] stNone).name ≠ "" := by
  constructor
  · exact (row_name_chain { id := "dev9", model := some "Shelly 1PM" } [] stNone).2.1
      (by decide) (by decide)
  · exact (row_name_chain { id := "dev9", model := some "Shelly 1PM" } [] stNone).2.2.2
      (by decide)

/-! ## C6: firmware resolver -/

/-- C6: the firmware resolver picks the first `update`-domain entity whose
identifier ends with `_firmware_update`; with a live state, update
availability is exactly state `on` and up-to-dateness exactly state `off`
(so they are never both true); with no such entity, `fwUpToDate` is the
unknown value, `fwUpdateAvailable` its `false` initialiser, and the
rendered firmware cell is the unknown chip. -/
theorem firmware_resolver_spec (d : DeviceRecord) (ents : List EntityRecord)
    (sf : String → Option State) :
    ((buildRow d ents sf).fwUpdateEntity =
      (ents.find? (fun e => e.domain == "update" &&
        endsCI "_firmware_update" e.entity_id)).map (·.entity_id)) ∧
    (∀ e st, fwUpdateEnt ents = some e → sf e.entity_id = some st →
      (buildRow d ents sf).fwUpdateAvailable = (st.state == "on") ∧
      (buildRow d ents sf).fwUpToDate = some (st.state == "off")) ∧
    (¬((buildRow d ents sf).fwUpdateAvailable = true ∧
       (buildRow d ents sf).fwUpToDate = some true)) ∧
    (fwUpdateEnt ents = none →
      (buildRow d ents sf).fwUpToDate = none ∧
      (buildRow d ents sf).fwUpdateAvailable = false ∧
      fwCellOf (buildRow d ents sf) = FwCell.unknown) := by
  have havail : (buildRow d ents sf).fwUpdateAvailable = fwAvailOf ents sf := rfl
  have hupd : (buildRow d ents sf).fwUpToDate = fwUpToDateOf ents sf := rfl
  have hent : (buildRow d ents sf).fwUpdateEntity = (fwUpdateEnt ents).map (·.entity_id) := rfl
  refine ⟨hent, ?_, ?_, ?_⟩
  · intro e st he hst
    rw [havail, hupd]
    simp only [fwAvailOf, fwUpToDateOf, he, hst]
    exact ⟨trivial, rfl⟩
  · rintro ⟨h1, h2⟩
    rw [havail] at h1
    rw [hupd] at h2
    cases he : fwUpdateEnt ents with
    | none =>
        simp only [fwAvailOf, he] at h1
        exact Bool.noConfusion h1
    | some e =>
        cases hst : sf e.entity_id with
        | none =>
            simp only [fwAvailOf, he, hst] at h1
            exact Bool.noConfusion h1
        | some st =>
            simp only [fwAvailOf, he, hst, beq_iff_eq] at h1
            simp only [fwUpToDateOf, he, hst, Option.map_some', Option.some.injEq] at h2
            rw [h1] at h2
            exact absurd h2.symm (by decide)
  · intro he
    rw [hupd, havail, fwUpToDateOf, fwAvailOf, he]
    refine ⟨rfl, rfl, ?_⟩
    rw [fwCellOf, havail, hupd, fwUpToDateOf, fwAvailOf, he]
    rfl

/-- C6 witness: a live `on` state yields available-and-not-up-to-date, and
a device without a firmware entity yields the unknown outcome. -/
theorem firmware_resolver_spec_witness :
    ((buildRow sensorDevice [fwEnt] stOn).fwUpdateAvailable = true ∧
     (buildRow sensorDevice [fwEnt] stOn).fwUpToDate = some false) ∧
    ((buildRow sensorDevice [] stOn).fwUpToDate = none ∧
     (buildRow sensorDevice [] stOn).fwUpdateAvailable = false ∧
     fwCellOf (buildRow sensorDevice [] stOn) = FwCell.unknown) := by
  constructor
  · have h := (firmware_resolver_spec sensorDevice [fwEnt] stOn).2.1 fwEnt
      { state := "on" } (by decide) rfl
    exact ⟨by rw [h.1]; decide, by rw [h.2]; decide⟩
  · exact (firmware_resolver_spec sensorDevice [] stOn).2.2.2 rfl

/-! ## Selector lemmas (shared by the primary-entity claims) -/

theorem selectFromDomains_mem (prim : List EntityRecord)
    (sf : String → Option State) :
    ∀ (ds : List String) (e : EntityRecord),
      selectFromDomains prim sf ds = some e → e ∈ prim := by
  intro ds
  induction ds with
  | nil => intro e h; exact absurd h (by simp [selectFromDomains])
  | cons d ds ih =>
      intro e h
      simp only [selectFromDomains] at h
      by_cases hw : (prim.filter
          (fun x => x.domain == d && (sf x.entity_id).isSome)).isEmpty
      · rw [if_pos hw] at h
        cases hfind : prim.find? (fun x => x.domain == d) with
        | some e₀ =>
            rw [hfind] at h
            cases h
            exact List.mem_of_find?_eq_some hfind
        | none =>
            rw [hfind] at h
            exact ih e h
      · rw [if_neg hw] at h
        cases hfind : (prim.filter
            (fun x => x.domain == d && (sf x.entity_id).isSome)).find?
              (fun x => noChannelSuffix x.entity_id) with
        | some e₀ =>
            rw [hfind] at h
            cases h
            exact List.mem_of_mem_filter (List.mem_of_find?_eq_some hfind)
        | none =>
            rw [hfind] at h
            cases hl : prim.filter
                (fun x => x.domain == d && (sf x.entity_id).isSome) with
            | nil => rw [hl] at h; cases h
            | cons w ws =>
                rw [hl] at h
                simp only [List.head?_cons, Option.some.injEq] at h
                subst h
                exact List.mem_of_mem_filter (hl ▸ List.mem_cons_self _ _)

theorem selectFromDomains_stateful (prim : List EntityRecord)
    (sf : String → Option State) (d : String) (ds : List String)
    (h : prim.filter (fun e => e.domain == d && (sf e.entity_id).isSome) ≠ []) :
    ∃ e', selectFromDomains prim sf (d :: ds) = some e' ∧
      e' ∈ prim.filter (fun e => e.domain == d && (sf e.entity_id).isSome) := by
  have hw : (prim.filter
      (fun e => e.domain == d && (sf e.entity_id).isSome)).isEmpty = false := by
    cases hl : prim.filter (fun e => e.domain == d && (sf e.entity_id).isSome) with
    | nil => exact absurd hl h
    | cons w ws => simp
  simp only [selectFromDomains, hw, Bool.false_eq_true, if_false]
  cases hfind : (prim.filter
      (fun e => e.domain == d && (sf e.entity_id).isSome)).find?
        (fun e => noChannelSuffix e.entity_id) with
  | some e₀ =>
      exact ⟨e₀, rfl, List.mem_of_find?_eq_some hfind⟩
  | none =>
      cases hl : prim.filter (fun e => e.domain == d && (sf e.entity_id).isSome) with
      | nil => exact absurd hl h
      | cons w ws =>
          exact ⟨w, rfl, hl ▸ List.mem_cons_self w ws⟩

theorem selectPrimaryEntity_spec (ents : List EntityRecord)
    (sf : String → Option State)
    (h : ents.filter (fun e => !truthy e.entity_category) ≠ []) :
    ∃ e', selectPrimaryEntity ents sf = some e' ∧
      e' ∈ ents.filter (fun e => !truthy e.entity_category) := by
  have hne : (ents.filter (fun e => !truthy e.entity_category)).isEmpty = false := by
    cases hl : ents.filter (fun e => !truthy e.entity_category) with
    | nil => exact absurd hl h
    | cons w ws => simp
  simp only [selectPrimaryEntity, hne, Bool.false_eq_true, if_false]
  cases hs : selectFromDomains (ents.filter (fun e => !truthy e.entity_category))
      sf priorityDomains with
  | some e => exact ⟨e, rfl, selectFromDomains_mem _ _ _ _ hs⟩
  | none =>
      cases hf : (ents.filter (fun e => !truthy e.entity_category)).find?
          (fun e => (sf e.entity_id).isSome) with
      | some e => exact ⟨e, rfl, List.mem_of_find?_eq_some hf⟩
      | none =>
          cases hl : ents.filter (fun e => !truthy e.entity_category) with
          | nil => exact absurd hl h
          | cons w ws => exact ⟨w, rfl, hl ▸ List.mem_cons_self w ws⟩

/-! ## C5: primary-entity selector never starves -/

/-- C5: the selector never returns a categorised entity unless discarding
them empties the set, in which case it returns the head of the raw list;
it returns some entity whenever the group is non-empty; and the
diagnostic-plus-`sensor.temp` scenario resolves to `sensor.temp`. -/
theorem primary_selector_fallback :
    (∀ (ents : List EntityRecord) (sf : String → Option State), ents ≠ [] →
      (selectPrimaryEntity ents sf).isSome = true) ∧
    (∀ (ents : List EntityRecord) (sf : String → Option State),
      (∃ e ∈ ents, truthy e.entity_category = false) →
      ∃ e', selectPrimaryEntity ents sf = some e' ∧
        truthy e'.entity_category = false) ∧
    (∀ (ents : List EntityRecord) (sf : String → Option State),
      (∀ e ∈ ents, truthy e.entity_category = true) →
      selectPrimaryEntity ents sf = ents.head?) ∧
    selectPrimaryEntity [diagEnt1, diagEnt2, tempSensorEnt] stOn
      = some tempSensorEnt := by
  refine ⟨?_, ?_, ?_, by decide⟩
  · intro ents sf hne
    by_cases hp : ents.filter (fun e => !truthy e.entity_category) = []
    · have hemp : (ents.filter (fun e => !truthy e.entity_category)).isEmpty = true := by
        simp [hp]
      simp only [selectPrimaryEntity, hemp, if_true]
      cases ents with
      | nil => exact absurd rfl hne
      | cons a l => simp
    · obtain ⟨e', hsel, _⟩ := selectPrimaryEntity_spec ents sf hp
      rw [hsel]
      rfl
  · rintro ents sf ⟨e, he, hcat⟩
    have hp : ents.filter (fun x => !truthy x.entity_category) ≠ [] := by
      intro hnil
      have hmem : e ∈ ents.filter (fun x => !truthy x.entity_category) :=
        List.mem_filter.mpr ⟨he, by simp [hcat]⟩
      rw [hnil] at hmem
      cases hmem
    obtain ⟨e', hsel, hmem⟩ := selectPrimaryEntity_spec ents sf hp
    refine ⟨e', hsel, ?_⟩
    have hpe := List.of_mem_filter hmem
    simpa using hpe
  · intro ents sf hall
    have hp : ents.filter (fun e => !truthy e.entity_category) = [] := by
      rw [List.filter_eq_nil_iff]
      intro a ha
      simp [hall a ha]
    have hemp : (ents.filter (fun e => !truthy e.entity_category)).isEmpty = true := by
      simp [hp]
    simp only [selectPrimaryEntity, hemp, if_true]

/-- C5 witness: the three quantified conjuncts instantiated at concrete
entity groups. -/
theorem primary_selector_fallback_witness :
    (selectPrimaryEntity [tempSensorEnt] stOn).isSome = true ∧
    (selectPrimaryEntity [diagEnt1, tempSensorEnt] stOn).map
      (fun e => truthy e.entity_category) = some false ∧
    selectPrimaryEntity [diagEnt1, diagEnt2] stOn = [diagEnt1, diagEnt2].head? := by
  refine ⟨primary_selector_fallback.1 [tempSensorEnt] stOn (by simp), ?_,
    primary_selector_fallback.2.2.1 [diagEnt1, diagEnt2] stOn (by decide)⟩
  obtain ⟨e', hsel, hcat⟩ := primary_selector_fallback.2.1 [diagEnt1, tempSensorEnt]
    stOn ⟨tempSensorEnt, by simp, by decide⟩
  rw [hsel, Option.map_some', hcat]

/-! ## C4: primary-entity domain priority and channel avoidance -/

/-- C4: the selector walks the fixed priority order (light first), so an
uncategorised stateful light entity always wins over switches; among
stateful entities of the winning domain one without a trailing channel
suffix is preferred; both concrete scenarios from the specification
hold. -/
theorem primary_selector_priority :
    priorityDomains = ["light", "switch", "cover", "sensor", "binary_sensor"] ∧
    (∀ (ents : List EntityRecord) (sf : String → Option State),
      (∃ e ∈ ents, e.domain = "light" ∧ truthy e.entity_category = false ∧
        (sf e.entity_id).isSome = true) →
      ∃ e', selectPrimaryEntity ents sf = some e' ∧ e'.domain = "light") ∧
    (∀ (ents : List EntityRecord) (sf : String → Option State),
      (∀ e ∈ ents, e.entity_category = none ∧ e.domain = "switch" ∧
        (sf e.entity_id).isSome = true) →
      (∃ e ∈ ents, noChannelSuffix e.entity_id = true) →
      ∃ e', selectPrimaryEntity ents sf = some e' ∧
        noChannelSuffix e'.entity_id = true) ∧
    selectPrimaryEntity [lightEnt, switchEnt] stOn = some lightEnt ∧
    selectPrimaryEntity [swFoo1, swFoo2, swFoo] stOn = some swFoo := by
  refine ⟨rfl, ?_, ?_, by decide, by decide⟩
  · rintro ents sf ⟨e, he, hdom, hcat, hst⟩
    have hmemp : e ∈ ents.filter (fun x => !truthy x.entity_category) :=
      List.mem_filter.mpr ⟨he, by simp [hcat]⟩
    have hpne : (ents.filter (fun x => !truthy x.entity_category)).isEmpty = false := by
      cases hl : ents.filter (fun x => !truthy x.entity_category) with
      | nil => rw [hl] at hmemp; cases hmemp
      | cons _ _ => simp
    have hws : (ents.filter (fun x => !truthy x.entity_category)).filter
        (fun x => x.domain == "light" && (sf x.entity_id).isSome) ≠ [] := by
      intro hnil
      have hmem2 : e ∈ (ents.filter (fun x => !truthy x.entity_category)).filter
          (fun x => x.domain == "light" && (sf x.entity_id).isSome) :=
        List.mem_filter.mpr ⟨hmemp, by simp [hdom, hst]⟩
      rw [hnil] at hmem2
      cases hmem2
    obtain ⟨e', hsel, hmem⟩ := selectFromDomains_stateful
      (ents.filter (fun x => !truthy x.entity_category)) sf "light"
      ["switch", "cover", "sensor", "binary_sensor"] hws
    refine ⟨e', ?_, ?_⟩
    · simp only [selectPrimaryEntity, hpne, Bool.false_eq_true, if_false]
      rw [show priorityDomains
        = "light" :: ["switch", "cover", "sensor", "binary_sensor"] from rfl]
      rw [hsel]
    · have hpe := List.of_mem_filter hmem
      simp only [Bool.and_eq_true, beq_iff_eq] at hpe
      exact hpe.1
  · rintro ents sf hall ⟨e, he, hnc⟩
    have hents_ne : ents ≠ [] := by
      intro hh
      rw [hh] at he
      cases he
    have hp : ents.filter (fun x => !truthy x.entity_category) = ents := by
      rw [List.filter_eq_self]
      intro a ha
      simp [(hall a ha).1, truthy]
    have hie : ents.isEmpty = false := by
      cases ents with
      | nil => exact absurd rfl hents_ne
      | cons _ _ => simp
    have hpne : (ents.filter (fun x => !truthy x.entity_category)).isEmpty = false := by
      rw [hp]; exact hie
    simp only [selectPrimaryEntity, hpne, Bool.false_eq_true, if_false, hp]
    rw [show priorityDomains
      = "light" :: "switch" :: ["cover", "sensor", "binary_sensor"] from rfl]
    have hws_light : ents.filter
        (fun x => x.domain == "light" && (sf x.entity_id).isSome) = [] := by
      rw [List.filter_eq_nil_iff]
      intro a ha
      simp [(hall a ha).2.1]
    have hfind_light : ents.find? (fun x => x.domain == "light") = none := by
      rw [List.find?_eq_none]
      intro a ha
      simp [(hall a ha).2.1]
    rw [selectFromDomains]
    simp only [hws_light, List.isEmpty_nil, if_true, hfind_light]
    rw [selectFromDomains]
    have hws_switch : ents.filter
        (fun x => x.domain == "switch" && (sf x.entity_id).isSome) = ents := by
      rw [List.filter_eq_self]
      intro a ha
      simp [(hall a ha).2.1, (hall a ha).2.2]
    simp only [hws_switch, hie, Bool.false_eq_true, if_false]
    cases hf : ents.find? (fun x => noChannelSuffix x.entity_id) with
    | none =>
        exfalso
        have hno := List.find?_eq_none.mp hf e he
        simp [hnc] at hno
    | some e' =>
        exact ⟨e', rfl, by simpa using List.find?_some hf⟩

/-- C4 witness: the two quantified conjuncts instantiated at the concrete
scenarios. -/
theorem primary_selector_priority_witness :
    (selectPrimaryEntity [lightEnt, switchEnt] stOn).map
      (fun e => e.domain) = some "light" ∧
    (selectPrimaryEntity [swFoo1, swFoo2, swFoo] stOn).map
      (fun e => noChannelSuffix e.entity_id) = some true := by
  constructor
  · obtain ⟨e', hsel, hdom⟩ := primary_selector_priority.2.1 [lightEnt, switchEnt]
      stOn ⟨lightEnt, by simp, rfl, by decide, rfl⟩
    rw [hsel, Option.map_some', hdom]
  · obtain ⟨e', hsel, hnc⟩ := primary_selector_priority.2.2.1 [swFoo1, swFoo2, swFoo]
      stOn (by decide) ⟨swFoo, by simp, by decide⟩
    rw [hsel, Option.map_some', hnc]

/-! ## IP resolver lemmas (shared by the IP claims) -/

theorem extractIP_method1_none (d : DeviceRecord)
    (h : truthy d.configuration_url = false) : extractIP_method1 d = none := by
  rw [extractIP_method1, if_neg]
  simp [h]

theorem extractIP_method2_shaped (ents : List EntityRecord)
    (sf : String → Option State) (s : String)
    (h : extractIP_method2 ents sf = some s) : ipShaped s = true := by
  obtain ⟨pat, _, hpat⟩ := List.exists_of_findSome?_eq_some h
  split at hpat
  · split at hpat
    · split at hpat
      · cases hpat
        rename_i hcond
        simp only [Bool.and_eq_true] at hcond
        exact hcond.2
      · cases hpat
    · cases hpat
  · cases hpat

theorem extractIP_method3_shaped (ents : List EntityRecord)
    (sf : String → Option State) (s : String)
    (h : extractIP_method3 ents sf = some s) : ipShaped s = true := by
  obtain ⟨e, _, he⟩ := List.exists_of_findSome?_eq_some h
  split at he
  · split at he
    · cases he
      rename_i hcond
      simp only [Bool.and_eq_true] at hcond
      exact hcond.2
    · cases he
  · cases he

theorem extractIP_no_cfg_shaped (d : DeviceRecord) (ents : List EntityRecord)
    (sf : String → Option State) (hcfg : truthy d.configuration_url = false)
    (hne : extractIP d ents sf ≠ "") : ipShaped (extractIP d ents sf) = true := by
  rw [extractIP, extractIP_method1_none d hcfg] at hne ⊢
  cases h2 : extractIP_method2 ents sf with
  | some s => exact extractIP_method2_shaped ents sf s h2
  | none =>
      cases h3 : extractIP_method3 ents sf with
      | some s => exact extractIP_method3_shaped ents sf s h3
      | none =>
          rw [h2, h3] at hne
          exact absurd rfl hne

theorem dedupRows_sourced (ebd : List (Option String × List EntityRecord))
    (sf : String → Option State) (ds : List DeviceRecord) :
    ∀ (seen : List String) (r : Row), r ∈ dedupRows ebd sf ds seen →
      ∃ d ∈ ds, r = buildRow d (entsOf ebd d.id) sf := by
  induction ds with
  | nil => intro seen r hr; rw [dedupRows] at hr; cases hr
  | cons d ds ih =>
      intro seen r hr
      rw [dedupRows] at hr
      by_cases h1 : seen.contains d.id
      · rw [if_pos h1] at hr
        obtain ⟨d₀, hd₀, hre⟩ := ih seen r hr
        exact ⟨d₀, List.mem_cons_of_mem d hd₀, hre⟩
      · rw [if_neg h1] at hr
        simp only at hr
        by_cases h2 : extractIP d (entsOf ebd d.id) sf ≠ ""
        · rw [if_pos h2] at hr
          by_cases h3 : seen.contains ("ip_" ++ extractIP d (entsOf ebd d.id) sf)
          · rw [if_pos h3] at hr
            obtain ⟨d₀, hd₀, hre⟩ := ih seen r hr
            exact ⟨d₀, List.mem_cons_of_mem d hd₀, hre⟩
          · rw [if_neg h3] at hr
            rcases List.mem_cons.mp hr with hre | hr2
            · exact ⟨d, List.mem_cons_self d ds, hre⟩
            · obtain ⟨d₀, hd₀, hre⟩ := ih _ r hr2
              exact ⟨d₀, List.mem_cons_of_mem d hd₀, hre⟩
        · rw [if_neg h2] at hr
          rcases List.mem_cons.mp hr with hre | hr2
          · exact ⟨d, List.mem_cons_self d ds, hre⟩
          · obtain ⟨d₀, hd₀, hre⟩ := ih _ r hr2
            exact ⟨d₀, List.mem_cons_of_mem d hd₀, hre⟩

/-! ## C1: IP shape of emitted rows -/

/-- C1 counterexample: the `configuration_url` resolution path returns the
URL host verbatim, so an accepted device whose configuration URL names a
host yields a row whose non-empty `ip` is not an IPv4 dotted quad. -/
theorem row_ip_shape_counterexample :
    (buildRows [hostDevice] [] stNone).map Row.ip = ["shellyhost"] ∧
    ipShaped "shellyhost" = false := by
  constructor
  · decide
  · decide

/-- C1 (amended): rows produced by the sensor-based resolution methods
always carry dotted-quad shaped IPs — whenever no accepted device exposes
a `configuration_url`, every emitted row's non-empty `ip` matches the
IPv4 dotted-quad shape.  (The `configuration_url` method may return an
arbitrary non-`localhost` host string, as the counterexample shows.) -/
theorem row_ip_shape (devices : List DeviceRecord) (entities : List EntityRecord)
    (sf : String → Option State)
    (hcfg : ∀ d ∈ devices, truthy d.configuration_url = false) :
    ∀ r ∈ buildRows devices entities sf, r.ip ≠ "" → ipShaped r.ip = true := by
  intro r hr hne
  obtain ⟨d, hd, hre⟩ := dedupRows_sourced (groupByDevice entities) sf
    (shellyDevices devices entities) [] r hr
  have hdmem : d ∈ devices := List.mem_of_mem_filter hd
  subst hre
  exact extractIP_no_cfg_shaped d _ sf (hcfg d hdmem) hne

/-- C1 witness: a device resolving its IP through an IP-pattern sensor
yields a dotted-quad row IP. -/
theorem row_ip_shape_witness :
    ((buildRows [sensorDevice] [ipSensorEnt] stIpSensor).all
      (fun r => (r.ip == "") || ipShaped r.ip)) = true := by
  have h := row_ip_shape [sensorDevice] [ipSensorEnt] stIpSensor (by decide)
  rw [List.all_eq_true]
  intro r hr
  by_cases hip : r.ip = ""
  · simp [hip]
  · simp only [Bool.or_eq_true, beq_iff_eq]
    exact Or.inr (h r hr hip)

/-! ## C3: display-name fallback of the IP resolver -/

/-- C3 counterexample: the current (v0.3.1) `_extractIP` returns the empty
string for a device whose display name embeds a dotted quad and whose
other methods all fail — it never inspects the name. -/
theorem name_fallback_counterexample :
    extractIP namedDevice [] stNone = "" ∧
    extractIP_method4 namedDevice = some "192.168.1.50" := by
  constructor
  · decide
  · decide

/-- C3 (amended): the display-name fallback exists only in the v0.2.1
resolver (`shelly-dashboard-panel.js`): when the `configuration_url`
method and all sensor-based methods fail, v0.2.1 returns the dotted-quad
substring embedded in the display name when there is one (the empty
string otherwise), while the final v0.3.1 resolver returns the empty
string without inspecting the name. -/
theorem name_fallback_v021 (d : DeviceRecord) (ents : List EntityRecord)
    (sf : String → Option State)
    (hcfg : truthy d.configuration_url = false)
    (hsens : ∀ e ∈ ents, ¬ e.domain = "sensor") :
    (∀ s, extractIP_method4 d = some s → extractIPv021 d ents sf = s) ∧
    (extractIP_method4 d = none → extractIPv021 d ents sf = "") ∧
    extractIP d ents sf = "" := by
  have h1 : extractIP_method1 d = none := extractIP_method1_none d hcfg
  have h2 : extractIP_method2 ents sf = none := by
    rw [extractIP_method2, List.findSome?_eq_none_iff]
    intro pat _
    cases hfind : ents.find? (fun e => pat e.entity_id && e.domain == "sensor") with
    | none => rfl
    | some e =>
        exfalso
        have hp := List.find?_some hfind
        simp only [Bool.and_eq_true, beq_iff_eq] at hp
        exact hsens e (List.mem_of_find?_eq_some hfind) hp.2
  have h3 : extractIP_method3 ents sf = none := by
    rw [extractIP_method3]
    have hf : ents.filter (fun e => e.domain == "sensor") = [] := by
      rw [List.filter_eq_nil_iff]
      intro a ha
      simp [hsens a ha]
    rw [hf]
    rfl
  refine ⟨?_, ?_, ?_⟩
  · intro s h4
    rw [extractIPv021, h1, h2, h3, h4]
  · intro h4
    rw [extractIPv021, h1, h2, h3, h4]
  · rw [extractIP, h1, h2, h3]

/-- C3 witness: the v0.2.1 resolver extracts the embedded dotted quad of
`namedDevice`. -/
theorem name_fallback_v021_witness :
    extractIPv021 namedDevice [] stNone = "192.168.1.50" := by
  exact (name_fallback_v021 namedDevice [] stNone (by decide) (by simp)).1
    "192.168.1.50" (by decide)

/-! ## C2: dedup guarantees unique non-empty IPs -/

theorem str_append_cancel (p a b : String) (h : p ++ a = p ++ b) : a = b := by
  have hd : (p ++ a).data = (p ++ b).data := congrArg String.data h
  simp only [String.data_append] at hd
  have hab := List.append_cancel_left hd
  cases a
  cases b
  exact congrArg String.mk hab

theorem dedupRows_ip_inv (ebd : List (Option String × List EntityRecord))
    (sf : String → Option State) (ds : List DeviceRecord) :
    ∀ seen : List String,
      (dedupRows ebd sf ds seen).Pairwise (fun a b => a.ip = "" ∨ a.ip ≠ b.ip) ∧
      ∀ r ∈ dedupRows ebd sf ds seen, r.ip ≠ "" →
        seen.contains ("ip_" ++ r.ip) = false := by
  induction ds with
  | nil =>
      intro seen
      rw [dedupRows]
      exact ⟨List.Pairwise.nil, by intro r hr; cases hr⟩
  | cons d ds ih =>
      intro seen
      rw [dedupRows]
      by_cases h1 : seen.contains d.id
      · rw [if_pos h1]
        exact ih seen
      · rw [if_neg h1]
        simp only
        have hbip : (buildRow d (entsOf ebd d.id) sf).ip
            = extractIP d (entsOf ebd d.id) sf := rfl
        by_cases h2 : extractIP d (entsOf ebd d.id) sf ≠ ""
        · rw [if_pos h2]
          by_cases h3 : seen.contains ("ip_" ++ extractIP d (entsOf ebd d.id) sf)
          · rw [if_pos h3]
            exact ih seen
          · rw [if_neg h3]
            obtain ⟨ihp, ihc⟩ := ih
              (("ip_" ++ extractIP d (entsOf ebd d.id) sf) :: d.id :: seen)
            constructor
            · refine List.pairwise_cons.mpr ⟨?_, ihp⟩
              intro r hr
              by_cases hrip : r.ip = ""
              · right
                rw [hbip, hrip]
                exact h2
              · right
                rw [hbip]
                have hkey := ihc r hr hrip
                simp only [List.contains_cons, Bool.or_eq_false_iff,
                  beq_eq_false_iff_ne] at hkey
                intro hcontra
                exact hkey.1 (by rw [hcontra])
            · intro r hr hrip
              rcases List.mem_cons.mp hr with hre | hr2
              · rw [hre, hbip]
                simp only [Bool.not_eq_true] at h3
                exact h3
              · have hkey := ihc r hr2 hrip
                simp only [List.contains_cons, Bool.or_eq_false_iff] at hkey
                exact hkey.2.2
        · rw [if_neg h2]
          have hip0 : extractIP d (entsOf ebd d.id) sf = "" := not_ne_iff.mp h2
          obtain ⟨ihp, ihc⟩ := ih (d.id :: seen)
          constructor
          · refine List.pairwise_cons.mpr ⟨?_, ihp⟩
            intro r hr
            left
            rw [hbip, hip0]
          · intro r hr hrip
            rcases List.mem_cons.mp hr with hre | hr2
            · rw [hre, hbip, hip0] at hrip
              exact absurd rfl hrip
            · have hkey := ihc r hr2 hrip
              simp only [List.contains_cons, Bool.or_eq_false_iff] at hkey
              exact hkey.2

/-- C2: no two rows emitted by the deduplicating row builder share the
same non-empty `ip`; in the two-duplicate-device scenario exactly one row
is emitted, for whichever device the registry traversal visits first. -/
theorem dedup_unique_ips :
    (∀ (devices : List DeviceRecord) (entities : List EntityRecord)
        (sf : String → Option State),
      (buildRows devices entities sf).Pairwise
        (fun a b => a.ip = "" ∨ a.ip ≠ b.ip)) ∧
    buildRows [dupDeviceA, dupDeviceB] [] stNone
      = [buildRow dupDeviceA [] stNone] ∧
    buildRows [dupDeviceB, dupDeviceA] [] stNone
      = [buildRow dupDeviceB [] stNone] := by
  refine ⟨?_, by decide, by decide⟩
  intro devices entities sf
  exact (dedupRows_ip_inv (groupByDevice entities) sf
    (shellyDevices devices entities) []).1

/-! ## Sort lemmas (for the sort-toggling claim) -/

theorem insertIns_mem {α : Type} (c : α → α → Ordering) (x : α) :
    ∀ (l : List α) (z : α), z ∈ insertIns c x l ↔ z = x ∨ z ∈ l := by
  intro l
  induction l with
  | nil => intro z; simp [insertIns]
  | cons y ys ih =>
      intro z
      rw [insertIns]
      by_cases hc : c x y = .gt
      · rw [if_pos hc]
        simp only [List.mem_cons, ih]
        tauto
      · rw [if_neg hc]
        simp only [List.mem_cons]

theorem insertIns_perm {α : Type} (c : α → α → Ordering) (x : α) :
    ∀ l : List α, (insertIns c x l).Perm (x :: l) := by
  intro l
  induction l with
  | nil => simp [insertIns]
  | cons y ys ih =>
      rw [insertIns]
      by_cases hc : c x y = .gt
      · rw [if_pos hc]
        exact (ih.cons y).trans (List.Perm.swap x y ys)
      · rw [if_neg hc]

theorem sortByCmp_perm {α : Type} (c : α → α → Ordering) :
    ∀ l : List α, (sortByCmp c l).Perm l := by
  intro l
  induction l with
  | nil => simp [sortByCmp]
  | cons x xs ih =>
      rw [sortByCmp]
      exact (insertIns_perm c x (sortByCmp c xs)).trans (ih.cons x)

theorem insertIns_sortedLE {α : Type} (c : α → α → Ordering)
    (hsym : ∀ x y, c x y = (c y x).swap)
    (htrans : ∀ x y z, c x y ≠ .gt → c y z ≠ .gt → c x z ≠ .gt) (x : α) :
    ∀ l : List α, l.Pairwise (fun a b => c a b ≠ .gt) →
      (insertIns c x l).Pairwise (fun a b => c a b ≠ .gt) := by
  intro l
  induction l with
  | nil => intro _; simp [insertIns]
  | cons y ys ih =>
      intro hl
      obtain ⟨hy, hys⟩ := List.pairwise_cons.mp hl
      rw [insertIns]
      by_cases hc : c x y = .gt
      · rw [if_pos hc]
        refine List.pairwise_cons.mpr ⟨?_, ih hys⟩
        intro z hz
        rcases (insertIns_mem c x ys z).mp hz with rfl | hzys
        · have hyx : c y z = (c z y).swap := hsym y z
          rw [hyx, hc]
          decide
        · exact hy z hzys
      · rw [if_neg hc]
        refine List.pairwise_cons.mpr ⟨?_, hl⟩
        intro z hz
        rcases List.mem_cons.mp hz with rfl | hzys
        · exact hc
        · exact htrans x y z hc (hy z hzys)

theorem sortByCmp_sortedLE {α : Type} (c : α → α → Ordering)
    (hsym : ∀ x y, c x y = (c y x).swap)
    (htrans : ∀ x y z, c x y ≠ .gt → c y z ≠ .gt → c x z ≠ .gt) :
    ∀ l : List α, (sortByCmp c l).Pairwise (fun a b => c a b ≠ .gt) := by
  intro l
  induction l with
  | nil => simp [sortByCmp]
  | cons x xs ih =>
      rw [sortByCmp]
      exact insertIns_sortedLE c hsym htrans x _ ih

theorem insertIns_append_last {α : Type} (c : α → α → Ordering) (x y : α)
    (h : c x y ≠ .gt) :
    ∀ p : List α, insertIns c x (p ++ [y]) = insertIns c x p ++ [y] := by
  intro p
  induction p with
  | nil =>
      simp only [List.nil_append, insertIns, if_neg h]
      rfl
  | cons z p ih =>
      rw [List.cons_append, insertIns, insertIns]
      by_cases hc : c x z = .gt
      · rw [if_pos hc, if_pos hc, ih, List.cons_append]
      · rw [if_neg hc, if_neg hc]
        simp [List.cons_append]

theorem insertIns_all_gt {α : Type} (c : α → α → Ordering) (x : α) :
    ∀ l : List α, (∀ z ∈ l, c x z = .gt) → insertIns c x l = l ++ [x] := by
  intro l
  induction l with
  | nil => intro _; rfl
  | cons z l ih =>
      intro h
      rw [insertIns, if_pos (h z (List.mem_cons_self z l)),
        ih (fun w hw => h w (List.mem_cons_of_mem z hw)), List.cons_append]

theorem insertIns_swap_rev {α : Type} (c : α → α → Ordering)
    (htrans : ∀ x y z, c x y ≠ .gt → c y z ≠ .gt → c x z ≠ .gt) (x : α) :
    ∀ s : List α, s.Pairwise (fun a b => c a b ≠ .gt) →
      (∀ y ∈ s, c x y ≠ .eq) →
      insertIns (fun a b => (c a b).swap) x s.reverse
        = (insertIns c x s).reverse := by
  intro s
  induction s with
  | nil => intro _ _; rfl
  | cons y ys ih =>
      intro hsort hne
      obtain ⟨hy, hys⟩ := List.pairwise_cons.mp hsort
      have hxy : c x y ≠ .eq := hne y (List.mem_cons_self y ys)
      rw [List.reverse_cons]
      by_cases hc : c x y = .gt
      · have hswap : ((fun a b => (c a b).swap) x y) ≠ .gt := by
          simp only
          rw [hc]
          decide
        rw [insertIns_append_last (fun a b => (c a b).swap) x y hswap ys.reverse]
        rw [ih hys (fun z hz => hne z (List.mem_cons_of_mem y hz))]
        rw [insertIns, if_pos hc, List.reverse_cons]
      · have hlt : c x y = .lt := by
          cases hcc : c x y
          · rfl
          · exact absurd hcc hxy
          · exact absurd hcc hc
        have hall : ∀ z ∈ ys.reverse ++ [y], ((fun a b => (c a b).swap) x z) = .gt := by
          intro z hz
          rcases List.mem_append.mp hz with hz1 | hz2
          · have hzys := List.mem_reverse.mp hz1
            have h1 : c x z ≠ .gt :=
              htrans x y z (by rw [hlt]; decide) (hy z hzys)
            have h2 : c x z ≠ .eq := hne z (List.mem_cons_of_mem y hzys)
            have h3 : c x z = .lt := by
              cases hcc : c x z
              · rfl
              · exact absurd hcc h2
              · exact absurd hcc h1
            simp only
            rw [h3]
            rfl
          · have hzy : z = y := by simpa using hz2
            simp only
            rw [hzy, hlt]
            rfl
        rw [insertIns_all_gt (fun a b => (c a b).swap) x (ys.reverse ++ [y]) hall]
        rw [insertIns, if_neg hc]
        simp [List.reverse_cons]

theorem sortByCmp_swap_rev {α : Type} (c : α → α → Ordering)
    (hsym : ∀ x y, c x y = (c y x).swap)
    (htrans : ∀ x y z, c x y ≠ .gt → c y z ≠ .gt → c x z ≠ .gt) :
    ∀ l : List α, l.Pairwise (fun a b => c a b ≠ .eq) →
      sortByCmp (fun a b => (c a b).swap) l = (sortByCmp c l).reverse := by
  intro l
  induction l with
  | nil => intro _; rfl
  | cons x xs ih =>
      intro hnt
      obtain ⟨hd, htl⟩ := List.pairwise_cons.mp hnt
      rw [sortByCmp, sortByCmp, ih htl]
      exact insertIns_swap_rev c htrans x (sortByCmp c xs)
        (sortByCmp_sortedLE c hsym htrans xs)
        (fun z hz => hd z ((sortByCmp_perm c xs).mem_iff.mp hz))

theorem applySort_desc_rev (coll : String → String → Ordering) (k : String)
    (rows : List Row)
    (hsym : ∀ x y, coll x y = (coll y x).swap)
    (htrans : ∀ x y z, coll x y ≠ .gt → coll y z ≠ .gt → coll x z ≠ .gt)
    (hnt : rows.Pairwise (fun a b => coll (sortVal k a) (sortVal k b) ≠ .eq)) :
    applySort coll ⟨k, SortDir.desc⟩ rows
      = (applySort coll ⟨k, SortDir.asc⟩ rows).reverse := by
  exact sortByCmp_swap_rev (fun a b : Row => coll (sortVal k a) (sortVal k b))
    (fun a b => hsym (sortVal k a) (sortVal k b))
    (fun a b c h1 h2 => htrans (sortVal k a) (sortVal k b) (sortVal k c) h1 h2)
    rows hnt

/-! ## C9: sort toggling -/

/-- C9 counterexample: two rows tying on the sort column break the
"second click reverses the first click's order" consequence — the stable
sort keeps tied rows in input order in both directions, while the reverse
swaps them. -/
theorem sort_toggle_counterexample :
    toggleSort (some (toggleSort (some ⟨"ip", SortDir.asc⟩) "name")) "name"
      = ⟨"name", SortDir.desc⟩ ∧
    applySort collatorCompare
        (toggleSort (some (toggleSort (some ⟨"ip", SortDir.asc⟩) "name")) "name")
        [rowP1, rowP2]
      ≠ (applySort collatorCompare (toggleSort (some ⟨"ip", SortDir.asc⟩) "name")
          [rowP1, rowP2]).reverse := by
  constructor
  · decide
  · decide

/-- C9 (amended): toggling the active column flips its direction and
toggling a different column resets to ascending; when no two rows compare
equal on the clicked column (under a coherent collator), the rows after
two clicks on one column are the exact reverse of the rows after the
first click.  (With ties the reversal fails, as the counterexample
shows: tied rows keep their relative order in both directions.) -/
theorem sort_toggle_spec (coll : String → String → Ordering) (s₀ : SortState)
    (k : String) (rows : List Row)
    (hsym : ∀ x y, coll x y = (coll y x).swap)
    (htrans : ∀ x y z, coll x y ≠ .gt → coll y z ≠ .gt → coll x z ≠ .gt)
    (hnt : rows.Pairwise (fun a b => coll (sortVal k a) (sortVal k b) ≠ .eq)) :
    (s₀.key = k → toggleSort (some s₀) k = ⟨k, flipDir s₀.dir⟩) ∧
    (s₀.key ≠ k → toggleSort (some s₀) k = ⟨k, SortDir.asc⟩) ∧
    applySort coll (toggleSort (some (toggleSort (some s₀) k)) k) rows
      = (applySort coll (toggleSort (some s₀) k) rows).reverse := by
  have hdesc := applySort_desc_rev coll k rows hsym htrans hnt
  by_cases hk : s₀.key = k
  · have hb : (s₀.key == k) = true := beq_iff_eq.mpr hk
    have h₁ : toggleSort (some s₀) k = ⟨s₀.key, flipDir s₀.dir⟩ := by
      simp [toggleSort, hb]
    refine ⟨fun _ => by rw [h₁, hk], fun hkne => absurd hk hkne, ?_⟩
    have h₂ : toggleSort (some (toggleSort (some s₀) k)) k
        = ⟨s₀.key, flipDir (flipDir s₀.dir)⟩ := by
      rw [h₁]
      simp [toggleSort, hb]
    rw [h₂, h₁, hk]
    cases hd : s₀.dir
    · rw [show flipDir (flipDir SortDir.asc) = SortDir.asc from rfl,
        show flipDir SortDir.asc = SortDir.desc from rfl, hdesc,
        List.reverse_reverse]
    · rw [show flipDir (flipDir SortDir.desc) = SortDir.desc from rfl,
        show flipDir SortDir.desc = SortDir.asc from rfl, hdesc]
  · have hb : (s₀.key == k) = false := beq_eq_false_iff_ne.mpr hk
    have h₁ : toggleSort (some s₀) k = ⟨k, SortDir.asc⟩ := by
      simp [toggleSort, hb]
    refine ⟨fun hke => absurd hke hk, fun _ => h₁, ?_⟩
    have h₂ : toggleSort (some (toggleSort (some s₀) k)) k
        = ⟨k, SortDir.desc⟩ := by
      rw [h₁]
      simp [toggleSort, flipDir]
    rw [h₂, h₁, hdesc]

/-- C9 witness: the toggle-and-reverse consequence instantiated at a
concrete collator, sort state and row list. -/
theorem sort_toggle_spec_witness :
    applySort (fun _ _ => Ordering.eq)
        (toggleSort (some (toggleSort (some ⟨"ip", SortDir.asc⟩) "name")) "name")
        [rowP1]
      = (applySort (fun _ _ => Ordering.eq)
          (toggleSort (some ⟨"ip", SortDir.asc⟩) "name") [rowP1]).reverse :=
  (sort_toggle_spec (fun _ _ => Ordering.eq) ⟨"ip", SortDir.asc⟩ "name" [rowP1]
    (fun _ _ => rfl) (fun _ _ _ h1 _ => h1) (by simp)).2.2

end ShellyPanel
